import Mathlib

/-!
Verification of the zenreader repository against its specification.

The reader-progress model, gesture classifier, storage operations,
immersive-UI state machine and markdown renderer are shallowly embedded
from the JavaScript sources:
  * src/js/reader-article.js (and src/unnamed/part_004): scroll progress;
  * src/js/gestures.js (and src/js/components/article-card.js): gestures;
  * src/js/storage.js and src/js/app.js: mark-as-read;
  * src/unnamed/part_000 and the app wiring in src/unnamed/part_001:
    immersive UI state machine;
  * src/unnamed/part_002: ZenKeeper storage (bookmarks, delete cascade)
    and the regex-chain markdown renderer.

Machine numbers are modelled exactly: DOM pixel/percentage arithmetic as
rationals, JS `Math.round x` as `⌊x + 1/2⌋`.  Strings are lists of
characters; each JS regex pass is embedded as an executable scanner with
the same matching semantics (leftmost match, lazy/greedy as in the
source, one-character advance on failure).
-/

/-- JS `Math.round`: round half towards positive infinity. -/
def jround (x : ℚ) : ℤ := ⌊x + 1/2⌋

/-- JS `Math.ceil` on an exact rational. -/
def jceil (x : ℚ) : ℤ := ⌈x⌉

/- ======================================================================
   Progress model (src/js/reader-article.js, src/unnamed/part_004)
   ====================================================================== -/

/-- `getMaxScroll`: `Math.max(1, contentElement.scrollHeight - container.clientHeight)`. -/
def getMaxScroll (contentHeight viewportHeight : ℚ) : ℚ :=
  max 1 (contentHeight - viewportHeight)

/-- `getScrollPercentage`: `if (maxScroll <= 0) return 100; return Math.round((container.scrollTop / maxScroll) * 100)`. -/
def getScrollPercentage (scrollTop contentHeight viewportHeight : ℚ) : ℤ :=
  if getMaxScroll contentHeight viewportHeight ≤ 0 then 100
  else jround (scrollTop / getMaxScroll contentHeight viewportHeight * 100)

/-- The scroll offset restored by `initArticle`:
`(options.scrollPosition / 100) * getMaxScroll()`. -/
def initArticleScrollTop (scrollPosition contentHeight viewportHeight : ℚ) : ℚ :=
  scrollPosition / 100 * getMaxScroll contentHeight viewportHeight

/- ======================================================================
   Gesture classification (src/js/gestures.js `handleTouchEnd`)
   ====================================================================== -/

/-- Gesture outcomes of the touch-end classifier. -/
inductive Gesture where
  | swipeLeft
  | swipeRight
  | swipeUp
  | swipeDown
  | tap
deriving DecidableEq, Repr

/-- `SWIPE_THRESHOLD = 50` (minimum distance for swipe). -/
def SWIPE_THRESHOLD : ℤ := 50

/-- `TAP_THRESHOLD = 10` (maximum movement for tap). -/
def TAP_THRESHOLD : ℤ := 10

/-- `SWIPE_TIMEOUT = 300` (maximum time for swipe gesture, ms). -/
def SWIPE_TIMEOUT : ℤ := 300

/-- The classification in `handleTouchEnd`, on
`deltaX = touchStartX - touch.clientX`, `deltaY = touchStartY - touch.clientY`,
`deltaTime = Date.now() - touchStartTime`.  `none` means the touch sequence
fires no gesture callback. -/
def handleTouchEnd (deltaX deltaY deltaTime : ℤ) : Option Gesture :=
  if deltaTime > SWIPE_TIMEOUT then none
  else if |deltaX| > SWIPE_THRESHOLD ∨ |deltaY| > SWIPE_THRESHOLD then
    if |deltaX| > |deltaY| then
      if deltaX > 0 then some Gesture.swipeLeft else some Gesture.swipeRight
    else
      if deltaY > 0 then some Gesture.swipeUp else some Gesture.swipeDown
  else if |deltaX| < TAP_THRESHOLD ∧ |deltaY| < TAP_THRESHOLD then some Gesture.tap
  else none

/- ======================================================================
   Mark-as-read (src/js/storage.js, src/js/app.js `setupScrollProgress`)
   ====================================================================== -/

/-- A row of the ZenReader `articles` table (fields relevant to reading state). -/
structure RArticle where
  id : ℕ
  isRead : Bool
  readAt : Option ℕ
  progress : ℤ
deriving DecidableEq, Repr

/-- Dexie `db.articles.update(id, changes)`: apply the changes to the record
with the given primary key; a no-op when no record has that key. -/
def articlesUpdate (articles : List RArticle) (id : ℕ) (f : RArticle → RArticle) :
    List RArticle :=
  articles.map fun a => if a.id = id then f a else a

/-- `markAsRead`: `db.articles.update(id, { isRead: true, readAt: Date.now() })`. -/
def markAsRead (articles : List RArticle) (id : ℕ) (now : ℕ) : List RArticle :=
  articlesUpdate articles id fun a => { a with isRead := true, readAt := some now }

/-- `updateProgress`: `db.articles.update(id, { progress })`. -/
def updateProgress (articles : List RArticle) (id : ℕ) (progress : ℤ) : List RArticle :=
  articlesUpdate articles id fun a => { a with progress := progress }

/-- One `setupScrollProgress` animation-frame callback: with the reader open on
`currentArticleId`, `if (currentArticleId && progress > 0)` save
`Math.round(progress)` and, `if (progress > 90)`, mark the article read. -/
def setupScrollProgressTick (articles : List RArticle) (currentArticleId : Option ℕ)
    (progress : ℚ) (now : ℕ) : List RArticle :=
  match currentArticleId with
  | none => articles
  | some id =>
    if 0 < progress then
      if 90 < progress then markAsRead (updateProgress articles id (jround progress)) id now
      else updateProgress articles id (jround progress)
    else articles

/-- A whole sequence of scroll callbacks, each with its own current article,
reported progress and timestamp. -/
def runScrollTicks (articles : List RArticle)
    (events : List (Option ℕ × ℚ × ℕ)) : List RArticle :=
  events.foldl (fun acc e => setupScrollProgressTick acc e.1 e.2.1 e.2.2) articles

/- ======================================================================
   Immersive UI state machine
   (src/unnamed/part_000 state + src/unnamed/part_001 app wiring)
   ====================================================================== -/

/-- The reader chrome state: `state.uiHidden` and `state.settingsSheetOpen`. -/
structure UIState where
  uiHidden : Bool
  settingsSheetOpen : Bool
deriving DecidableEq, Repr

/-- `closeSettingsSheet`: `state.settingsSheetOpen = false`. -/
def closeSettingsSheet (s : UIState) : UIState :=
  { s with settingsSheetOpen := false }

/-- `openSettingsSheet`: `state.settingsSheetOpen = true` (the source does not
touch `uiHidden`). -/
def openSettingsSheet (s : UIState) : UIState :=
  { s with settingsSheetOpen := true }

/-- `showUI`: `state.uiHidden = false`. -/
def showUI (s : UIState) : UIState :=
  { s with uiHidden := false }

/-- `hideUI`: `state.uiHidden = true`, then
`if (state.settingsSheetOpen) closeSettingsSheet()`. -/
def hideUI (s : UIState) : UIState :=
  let s1 : UIState := { s with uiHidden := true }
  if s1.settingsSheetOpen then closeSettingsSheet s1 else s1

/-- `toggleUI`: show when hidden, hide when visible. -/
def toggleUI (s : UIState) : UIState :=
  if s.uiHidden then showUI s else hideUI s

/-- The reader-state reset performed by `showLibrary`:
`state.uiHidden = false; state.settingsSheetOpen = false`. -/
def showLibraryReset (s : UIState) : UIState :=
  { s with uiHidden := false, settingsSheetOpen := false }

/-- The UI events wired in the ZenReader app (`setupGestures`, the settings
footer button, the sheet backdrop, the back button). -/
inductive UIEvent where
  | tap
  | swipeUp
  | swipeDown
  | settingsButton
  | backdropClose
  | backToLibrary
deriving DecidableEq, Repr

/-- One transition of the immersive-UI state machine, exactly as wired in the
app: tap toggles chrome only when the sheet is closed; swipe-up hides chrome
(closing the sheet); swipe-down closes an open sheet, else shows chrome; the
settings button calls `openSettingsSheet()` directly; the backdrop closes the
sheet; returning to the library resets both flags. -/
def uiStep (e : UIEvent) (s : UIState) : UIState :=
  match e with
  | UIEvent.tap => if s.settingsSheetOpen then s else toggleUI s
  | UIEvent.swipeUp => hideUI s
  | UIEvent.swipeDown =>
      if s.settingsSheetOpen then closeSettingsSheet s else showUI s
  | UIEvent.settingsButton => openSettingsSheet s
  | UIEvent.backdropClose => closeSettingsSheet s
  | UIEvent.backToLibrary => showLibraryReset s

/-- The initial UI state: chrome visible, sheet closed. -/
def uiInit : UIState := ⟨false, false⟩

/-- The state reached from the initial state by a sequence of events. -/
def uiRun (events : List UIEvent) : UIState :=
  events.foldl (fun s e => uiStep e s) uiInit

/- ======================================================================
   ZenKeeper storage (src/unnamed/part_002): bookmarks and delete cascade
   ====================================================================== -/

/-- A row of the ZenKeeper `bookmarks` table. -/
structure Bookmark where
  id : ℕ
  articleId : ℕ
  scrollPosition : ℚ
  label : List Char
  createdAt : ℕ
deriving DecidableEq, Repr

/-- A row of the ZenKeeper `articles` table (identity fields only). -/
structure KArticle where
  id : ℕ
  title : List Char
  url : List Char
  addedAt : ℕ
  lastReadAt : Option ℕ
deriving DecidableEq, Repr

/-- A row of the ZenKeeper `highlights` table. -/
structure Highlight where
  id : ℕ
  articleId : ℕ
  startOffset : ℕ
  endOffset : ℕ
  text : List Char
  createdAt : ℕ
deriving DecidableEq, Repr

/-- A row of the ZenKeeper `readingProgress` table (keyed by `articleId`). -/
structure ProgressRec where
  articleId : ℕ
  scrollPosition : ℚ
  percentage : ℚ
  updatedAt : ℕ
deriving DecidableEq, Repr

/-- The ZenKeeper persistent state: the four Dexie tables plus the OPFS
content files (one blob per article id). -/
structure ZkDB where
  articles : List KArticle
  contents : List (ℕ × List Char)
  bookmarks : List Bookmark
  highlights : List Highlight
  readingProgress : List ProgressRec
deriving DecidableEq, Repr

/-- Dexie `db.articles.get(id)`. -/
def articlesGet (articles : List KArticle) (id : ℕ) : Option KArticle :=
  articles.find? fun a => a.id = id

/-- `deleteArticle`: return immediately when the article does not exist,
otherwise delete the OPFS content, the article row and the owned bookmark,
highlight and progress rows. -/
def deleteArticle (db : ZkDB) (id : ℕ) : ZkDB :=
  match articlesGet db.articles id with
  | none => db
  | some _ =>
    { articles := db.articles.filter fun a => ¬ a.id = id
      contents := db.contents.filter fun c => ¬ c.1 = id
      bookmarks := db.bookmarks.filter fun b => ¬ b.articleId = id
      highlights := db.highlights.filter fun h => ¬ h.articleId = id
      readingProgress := db.readingProgress.filter fun p => ¬ p.articleId = id }

/-- `getBookmarks`: `db.bookmarks.where('articleId').equals(articleId).toArray()`. -/
def getBookmarks (db : ZkDB) (articleId : ℕ) : List Bookmark :=
  db.bookmarks.filter fun b => b.articleId = articleId

/-- `findBookmark`:
`bookmarks.find(b => Math.abs(b.scrollPosition - scrollPosition) < 2) || null`. -/
def findBookmark (db : ZkDB) (articleId : ℕ) (scrollPosition : ℚ) : Option Bookmark :=
  (getBookmarks db articleId).find? fun b => |b.scrollPosition - scrollPosition| < 2

/- ======================================================================
   Strings: JS whitespace, trim, split (ASCII fragment)
   ====================================================================== -/

/-- The ASCII characters matched by the JS `\s` class (and trimmed by
`String.prototype.trim`). -/
def jsWhitespace (c : Char) : Bool :=
  c == ' ' || c == '\t' || c == '\n' || c == '\r' || c == '\x0b' || c == '\x0c'

/-- JS `String.prototype.trim`: drop whitespace from both ends. -/
def jsTrim (s : List Char) : List Char :=
  ((s.dropWhile jsWhitespace).reverse.dropWhile jsWhitespace).reverse

/-- The scanner behind JS `s.split(/\s+/)`: the state is `some acc` while
building a token (`acc` reversed) and `none` while inside a separator run.
An empty input yields `[""]`, leading whitespace yields a leading empty
piece and trailing whitespace a trailing empty piece, exactly as in JS. -/
def splitWSAux : Option (List Char) → List Char → List (List Char)
  | some acc, [] => [acc.reverse]
  | none, [] => [[]]
  | some acc, c :: r =>
    if jsWhitespace c then acc.reverse :: splitWSAux none r
    else splitWSAux (some (c :: acc)) r
  | none, c :: r =>
    if jsWhitespace c then splitWSAux none r
    else splitWSAux (some [c]) r

/-- JS `s.split(/\s+/)`. -/
def splitWS (s : List Char) : List (List Char) := splitWSAux (some []) s

/-- `calculateReadingTime` (src/unnamed/part_002):
`Math.ceil(text.trim().split(/\s+/).length / wordsPerMinute)`. -/
def calculateReadingTime (text : List Char) (wordsPerMinute : ℕ) : ℤ :=
  jceil (((splitWS (jsTrim text)).length : ℚ) / (wordsPerMinute : ℚ))

/-- The number of whitespace-separated words of a text, counted the way
src/js/reader-article.js does: `text.split(/\s+/).filter(w => w.length > 0).length`
(computed on the trimmed text; trimming never changes the set of nonempty
pieces). -/
def wordCount (text : List Char) : ℕ :=
  ((splitWS (jsTrim text)).filter (fun w => !w.isEmpty)).length

/- ======================================================================
   Markdown renderer (src/unnamed/part_002, ZenKeeper variant with ids)
   ====================================================================== -/

/-- The backquote character (code 96), written by code point to keep the
source free of raw backquotes. -/
def backquote : Char := Char.ofNat 96

/-- JS `toLowerCase` on the ASCII letters. -/
def jsToLower (c : Char) : Char :=
  if 'A' ≤ c ∧ c ≤ 'Z' then Char.ofNat (c.toNat + 32) else c

/-- The characters kept by `replace(/[^a-z0-9\s-]/g, '')`. -/
def slugKeep (c : Char) : Bool :=
  (decide ('a' ≤ c) && decide (c ≤ 'z')) || (decide ('0' ≤ c) && decide (c ≤ '9')) ||
    jsWhitespace c || c == '-'

/-- `replace(/P+/g, '-')` for a character class `P`: each maximal run of
characters satisfying `p` becomes a single dash.  The Boolean state records
whether the scan is inside such a run. -/
def collapseRuns (p : Char → Bool) : Bool → List Char → List Char
  | _, [] => []
  | inRun, c :: r =>
    if p c then
      if inRun then collapseRuns p true r else '-' :: collapseRuns p true r
    else c :: collapseRuns p false r

/-- The dash class of the dash-collapsing replace (regex `-+`, global). -/
def dashPred (c : Char) : Bool := c == '-'

/-- `slugify` (src/unnamed/part_002 lines 456-463): lowercase, strip
characters outside `[a-z0-9\s-]`, trim, replace `\s+` runs by `-`, then
collapse `-+` runs. -/
def slugify (text : List Char) : List Char :=
  collapseRuns dashPred false
    (collapseRuns jsWhitespace false
      (jsTrim ((text.map jsToLower).filter slugKeep)))

/-- The whitespace-or-dash class. -/
def wsDash (c : Char) : Bool := jsWhitespace c || c == '-'

/-- Modelled from the spec: the slug is derived by lowercasing, stripping
characters outside `[a-z0-9\s-]`, trimming, and collapsing whitespace/dashes
to single dashes (a single collapse pass over the combined class). -/
def slugifySpec (text : List Char) : List Char :=
  collapseRuns wsDash false (jsTrim ((text.map jsToLower).filter slugKeep))

/-- Leftmost occurrence of `pat`: the text before it and the text after it. -/
def splitAtSeq (pat : List Char) : List Char → Option (List Char × List Char)
  | [] => none
  | c :: r =>
    if pat.isPrefixOf (c :: r) then some ([], (c :: r).drop pat.length)
    else
      match splitAtSeq pat r with
      | some (b, a) => some (c :: b, a)
      | none => none

/-- Whether `pat` occurs in `l`. -/
def containsSeq (pat l : List Char) : Bool := (splitAtSeq pat l).isSome

/-- A global regex replace pass: at each position try the matcher; on a match
emit its replacement and continue after the consumed text, otherwise copy one
character and move on.  Every matcher below consumes at least one character,
so fuel `length + 1` is never exhausted. -/
def rscan (f : List Char → Option (List Char × List Char)) : ℕ → List Char → List Char
  | 0, l => l
  | _ + 1, [] => []
  | fuel + 1, c :: r =>
    match f (c :: r) with
    | some (emit, rest) => emit ++ rscan f fuel rest
    | none => c :: rscan f fuel r

/-- Run one replace pass over a whole string. -/
def applyRule (f : List Char → Option (List Char × List Char)) (l : List Char) :
    List Char :=
  rscan f (l.length + 1) l

/-- `replace(/c/g, rep)` for a single character. -/
def replaceChar (c : Char) (rep : List Char) (l : List Char) : List Char :=
  l.foldr (fun x acc => if x = c then rep ++ acc else x :: acc) []

/-- The lookahead `(amp|lt|gt|quot|#39);` of the ampersand escape. -/
def entityRefAt (r : List Char) : Bool :=
  "amp;".data.isPrefixOf r || "lt;".data.isPrefixOf r || "gt;".data.isPrefixOf r ||
    "quot;".data.isPrefixOf r || "#39;".data.isPrefixOf r

/-- `replace(/&(?!(amp|lt|gt|quot|#39);)/g, '&amp;')`. -/
def ampMatcher : List Char → Option (List Char × List Char)
  | '&' :: r => if entityRefAt r then none else some ("&amp;".data, r)
  | _ => none

/-- The `(a|img)\s` part of the `<` lookahead. -/
def tagNameWS : List Char → Bool
  | 'a' :: c :: _ => jsWhitespace c
  | 'i' :: 'm' :: 'g' :: c :: _ => jsWhitespace c
  | _ => false

/-- The lookahead `\/?(a|img)\s` of the `<` escape. -/
def anchorLookahead : List Char → Bool
  | '/' :: t => tagNameWS t
  | t => tagNameWS t

/-- `replace(/<(?!\/?(a|img)\s)/g, '&lt;')`. -/
def ltMatcher : List Char → Option (List Char × List Char)
  | '<' :: r => if anchorLookahead r then none else some ("&lt;".data, r)
  | _ => none

/-- `replace(/(?<!["=])>/g, '&gt;')`: the negative lookbehind inspects the
original previous character. -/
def escGtAux : Option Char → List Char → List Char
  | _, [] => []
  | prev, c :: r =>
    if c = '>' ∧ prev ≠ some '"' ∧ prev ≠ some '=' then
      "&gt;".data ++ escGtAux (some c) r
    else c :: escGtAux (some c) r

/-- The whole `>` escape pass. -/
def escGt (l : List Char) : List Char := escGtAux none l

/-- The `\w` class of the fence language tag. -/
def isWordChar (c : Char) : Bool :=
  (decide ('a' ≤ c) && decide (c ≤ 'z')) || (decide ('A' ≤ c) && decide (c ≤ 'Z')) ||
    (decide ('0' ≤ c) && decide (c ≤ '9')) || c == '_'

/-- The escape applied to fenced code content:
`.replace(/&/g,'&amp;').replace(/</g,'&lt;').replace(/>/g,'&gt;')`. -/
def escapeAllHtml (code : List Char) : List Char :=
  replaceChar '>' "&gt;".data (replaceChar '<' "&lt;".data (replaceChar '&' "&amp;".data code))

/-- The fenced-code-block rule: three backquotes, a greedy `\w*` language
tag, a newline, then the lazily shortest content up to the next three
backquotes; the content is escape-mapped and wrapped. -/
def codeBlockMatcher (l : List Char) : Option (List Char × List Char) :=
  if "```".data.isPrefixOf l then
    let r := l.drop 3
    let lang := r.takeWhile isWordChar
    match r.drop lang.length with
    | '\n' :: r2 =>
      match splitAtSeq "```".data r2 with
      | some (code, rest) =>
        some ("<pre><code class=\"language-".data ++ lang ++ "\">".data ++
          escapeAllHtml code ++ "</code></pre>".data, rest)
      | none => none
    | _ => none
  else none

/-- The inline-code rule: a backquote, a greedy nonempty run free of
backquotes and newlines, and a closing backquote. -/
def inlineCodeMatcher (l : List Char) : Option (List Char × List Char) :=
  match l with
  | c :: r =>
    if c == backquote then
      let content := r.takeWhile (fun x => !(x == backquote || x == '\n'))
      if content.isEmpty then none
      else
        match r.drop content.length with
        | c2 :: rest =>
          if c2 == backquote then
            some ("<code>".data ++ content ++ "</code>".data, rest)
          else none
        | [] => none
    else none
  | [] => none

/-- JS `s.split('\n')` at the character level. -/
def splitOnChar (sep : Char) : List Char → List (List Char)
  | [] => [[]]
  | c :: r =>
    if c == sep then [] :: splitOnChar sep r
    else
      match splitOnChar sep r with
      | [] => [[c]]
      | t :: ts => (c :: t) :: ts

/-- Join lines back with newlines (JS `join('\n')`). -/
def joinWithNL : List (List Char) → List Char
  | [] => []
  | [x] => x
  | x :: xs => x ++ '\n' :: joinWithNL xs

/-- A whole-line multiline regex replace (`^...$` with the `m` flag). -/
def mapLines (f : List Char → List Char) (l : List Char) : List Char :=
  joinWithNL ((splitOnChar '\n' l).map f)

/-- `^### (.+)$` with id: `<h3 id="${slugify(text)}">${text}</h3>`. -/
def h3Line (line : List Char) : List Char :=
  if "### ".data.isPrefixOf line && !(line.drop 4).isEmpty then
    "<h3 id=\"".data ++ slugify (line.drop 4) ++ "\">".data ++ line.drop 4 ++ "</h3>".data
  else line

/-- `^## (.+)$` with id. -/
def h2Line (line : List Char) : List Char :=
  if "## ".data.isPrefixOf line && !(line.drop 3).isEmpty then
    "<h2 id=\"".data ++ slugify (line.drop 3) ++ "\">".data ++ line.drop 3 ++ "</h2>".data
  else line

/-- `^# (.+)$` with id. -/
def h1Line (line : List Char) : List Char :=
  if "# ".data.isPrefixOf line && !(line.drop 2).isEmpty then
    "<h1 id=\"".data ++ slugify (line.drop 2) ++ "\">".data ++ line.drop 2 ++ "</h1>".data
  else line

/-- The lazy `(.+?)` scan up to a closing delimiter on the same line:
after at least one accumulated character, close at the earliest position
where `pat` follows. -/
def lazyUntil (pat : List Char) : List Char → List Char → Option (List Char × List Char)
  | acc, [] =>
    if !acc.isEmpty && pat.isPrefixOf [] then some (acc.reverse, []) else none
  | acc, c :: r =>
    if !acc.isEmpty && pat.isPrefixOf (c :: r) then
      some (acc.reverse, (c :: r).drop pat.length)
    else if c = '\n' then none
    else lazyUntil pat (c :: acc) r

/-- `replace(/\*\*\*(.+?)\*\*\*/g, '<strong><em>$1</em></strong>')`. -/
def tripleStarMatcher : List Char → Option (List Char × List Char)
  | '*' :: '*' :: '*' :: r =>
    match lazyUntil "***".data [] r with
    | some (content, rest) =>
      some ("<strong><em>".data ++ content ++ "</em></strong>".data, rest)
    | none => none
  | _ => none

/-- `replace(/\*\*(.+?)\*\*/g, '<strong>$1</strong>')`. -/
def doubleStarMatcher : List Char → Option (List Char × List Char)
  | '*' :: '*' :: r =>
    match lazyUntil "**".data [] r with
    | some (content, rest) => some ("<strong>".data ++ content ++ "</strong>".data, rest)
    | none => none
  | _ => none

/-- `replace(/\*([^*\n]+)\*/g, '<em>$1</em>')`. -/
def italicMatcher : List Char → Option (List Char × List Char)
  | '*' :: r =>
    let content := r.takeWhile (fun c => !(c == '*' || c == '\n'))
    if content.isEmpty then none
    else
      match r.drop content.length with
      | '*' :: rest => some ("<em>".data ++ content ++ "</em>".data, rest)
      | _ => none
  | _ => none

/-- `replace(/\[([^\]]+)\]\(([^)]+)\)/g, ...)`: links with safe attributes. -/
def linkMatcher : List Char → Option (List Char × List Char)
  | '[' :: r =>
    let t := r.takeWhile (fun c => !(c == ']'))
    if t.isEmpty then none
    else
      match r.drop t.length with
      | ']' :: '(' :: r2 =>
        let u := r2.takeWhile (fun c => !(c == ')'))
        if u.isEmpty then none
        else
          match r2.drop u.length with
          | ')' :: rest =>
            some ("<a href=\"".data ++ u ++
              "\" target=\"_blank\" rel=\"noopener noreferrer\">".data ++ t ++
              "</a>".data, rest)
          | _ => none
      | _ => none
  | _ => none

/-- `replace(/!\[([^\]]*)\]\(([^)]+)\)/g, ...)`: lazily loaded images. -/
def imageMatcher : List Char → Option (List Char × List Char)
  | '!' :: '[' :: r =>
    let t := r.takeWhile (fun c => !(c == ']'))
    match r.drop t.length with
    | ']' :: '(' :: r2 =>
      let u := r2.takeWhile (fun c => !(c == ')'))
      if u.isEmpty then none
      else
        match r2.drop u.length with
        | ')' :: rest =>
          some ("<img src=\"".data ++ u ++ "\" alt=\"".data ++ t ++
            "\" loading=\"lazy\">".data, rest)
        | _ => none
    | _ => none
  | _ => none

/-- `^> (.+)$` blockquote lines. -/
def blockquoteLine (line : List Char) : List Char :=
  if "> ".data.isPrefixOf line && !(line.drop 2).isEmpty then
    "<blockquote>".data ++ line.drop 2 ++ "</blockquote>".data
  else line

/-- `^---$` horizontal rule. -/
def hrDashLine (line : List Char) : List Char :=
  if line = "---".data then "<hr>".data else line

/-- `^\*\*\*$` horizontal rule. -/
def hrStarLine (line : List Char) : List Char :=
  if line = "***".data then "<hr>".data else line

/-- `^[\-\*] (.+)$` unordered list items. -/
def ulLine (line : List Char) : List Char :=
  match line with
  | c :: ' ' :: t =>
    if (c == '-' || c == '*') && !t.isEmpty then "<li>".data ++ t ++ "</li>".data
    else line
  | _ => line

/-- The `\d` class. -/
def isDigitChar (c : Char) : Bool := decide ('0' ≤ c) && decide (c ≤ '9')

/-- `^\d+\. (.+)$` ordered list items. -/
def olLine (line : List Char) : List Char :=
  let ds := line.takeWhile isDigitChar
  if ds.isEmpty then line
  else
    match line.drop ds.length with
    | '.' :: ' ' :: t =>
      if t.isEmpty then line else "<li>".data ++ t ++ "</li>".data
    | _ => line

/-- The end position (index just past the match) of the last occurrence of
`pat` in the list, counting from offset `i`. -/
def lastMatchEnd (pat : List Char) : List Char → ℕ → Option ℕ
  | [], _ => none
  | c :: r, i =>
    match lastMatchEnd pat r (i + 1) with
    | some j => some j
    | none => if pat.isPrefixOf (c :: r) then some (i + pat.length) else none

/-- One greedy iteration of `(<li>.*<\/li>\n?)`: from an opening `<li>`,
take the longest same-line stretch ending in `</li>` plus an optional
newline. -/
def liChunkOne (l : List Char) : Option (List Char × List Char) :=
  if "<li>".data.isPrefixOf l then
    match lastMatchEnd "</li>".data (l.takeWhile (fun c => !(c == '\n'))) 0 with
    | some e =>
      match l.drop e with
      | '\n' :: rest => some (l.take e ++ ['\n'], rest)
      | rest => some (l.take e, rest)
    | none => none
  else none

/-- The `+` repetition of list-item chunks (each chunk consumes at least one
character, so fuel `length` suffices). -/
def liRun : ℕ → List Char → List Char × List Char
  | 0, l => ([], l)
  | fuel + 1, l =>
    match liChunkOne l with
    | some (chunk, rest) =>
      let p := liRun fuel rest
      (chunk ++ p.1, p.2)
    | none => ([], l)

/-- `replace(/(<li>.*<\/li>\n?)+/g, m => '<ul>' + m + '</ul>')`. -/
def wrapListsMatcher (l : List Char) : Option (List Char × List Char) :=
  match liChunkOne l with
  | some (chunk, rest) =>
    let p := liRun rest.length rest
    some ("<ul>".data ++ chunk ++ p.1 ++ "</ul>".data, p.2)
  | none => none

/-- One greedy iteration of `(<blockquote>.*<\/blockquote>\n?)`. -/
def bqChunkOne (l : List Char) : Option (List Char × List Char) :=
  if "<blockquote>".data.isPrefixOf l then
    match lastMatchEnd "</blockquote>".data (l.takeWhile (fun c => !(c == '\n'))) 0 with
    | some e =>
      match l.drop e with
      | '\n' :: rest => some (l.take e ++ ['\n'], rest)
      | rest => some (l.take e, rest)
    | none => none
  else none

/-- The `+` repetition of blockquote chunks. -/
def bqRun : ℕ → List Char → List Char × List Char
  | 0, l => ([], l)
  | fuel + 1, l =>
    match bqChunkOne l with
    | some (chunk, rest) =>
      let p := bqRun fuel rest
      (chunk ++ p.1, p.2)
    | none => ([], l)

/-- The inner `match.replace(/<\/?blockquote>/g, ' ')`. -/
def bqTagMatcher (l : List Char) : Option (List Char × List Char) :=
  if "</blockquote>".data.isPrefixOf l then some ([' '], l.drop 13)
  else if "<blockquote>".data.isPrefixOf l then some ([' '], l.drop 12)
  else none

/-- `replace(/(<blockquote>.*<\/blockquote>\n?)+/g, ...)`: merge consecutive
blockquotes, spacing out the tags and trimming, into a single blockquote. -/
def mergeBlockquotesMatcher (l : List Char) : Option (List Char × List Char) :=
  match bqChunkOne l with
  | some (chunk, rest) =>
    let p := bqRun rest.length rest
    let inner := jsTrim (applyRule bqTagMatcher (chunk ++ p.1))
    some ("<blockquote>".data ++ inner ++ "</blockquote>".data, p.2)
  | none => none

/-- JS `s.split('\n\n')` (leftmost, non-overlapping; fuel `length + 1`
always suffices because each separator consumes two characters). -/
def splitOnSeq (pat : List Char) : ℕ → List Char → List (List Char)
  | 0, l => [l]
  | fuel + 1, l =>
    match splitAtSeq pat l with
    | some (b, a) => b :: splitOnSeq pat fuel a
    | none => [l]

/-- The block test `/^<(h[1-6]|ul|ol|li|pre|blockquote|hr|img|a )/`. -/
def blockTagStart (b : List Char) : Bool :=
  match b with
  | '<' :: r =>
    (match r with
     | 'h' :: d :: _ => decide ('1' ≤ d) && decide (d ≤ '6')
     | _ => false) ||
    "ul".data.isPrefixOf r || "ol".data.isPrefixOf r || "li".data.isPrefixOf r ||
    "pre".data.isPrefixOf r || "blockquote".data.isPrefixOf r ||
    "hr".data.isPrefixOf r || "img".data.isPrefixOf r || "a ".data.isPrefixOf r
  | _ => false

/-- The per-block paragraph wrapper: trim, drop empty blocks, keep block
elements, wrap the rest in `<p>` with inner newlines as `<br>`. -/
def paragraphBlock (b : List Char) : List Char :=
  let t := jsTrim b
  if t.isEmpty then []
  else if blockTagStart t then t
  else "<p>".data ++ replaceChar '\n' "<br>".data t ++ "</p>".data

/-- The paragraph pass: split on blank lines, wrap blocks, join with `\n`. -/
def paragraphs (l : List Char) : List Char :=
  joinWithNL ((splitOnSeq "\n\n".data (l.length + 1) l).map paragraphBlock)

/-- `renderMarkdown` (src/unnamed/part_002 lines 493-581): the full regex
chain in source order. -/
def renderMarkdown (md : List Char) : List Char :=
  if md.isEmpty then []
  else
    let s1 := applyRule ampMatcher md
    let s2 := applyRule ltMatcher s1
    let s3 := escGt s2
    let s4 := applyRule codeBlockMatcher s3
    let s5 := applyRule inlineCodeMatcher s4
    let s6 := mapLines h3Line s5
    let s7 := mapLines h2Line s6
    let s8 := mapLines h1Line s7
    let s9 := applyRule tripleStarMatcher s8
    let s10 := applyRule doubleStarMatcher s9
    let s11 := applyRule italicMatcher s10
    let s12 := applyRule linkMatcher s11
    let s13 := applyRule imageMatcher s12
    let s14 := mapLines blockquoteLine s13
    let s15 := mapLines hrDashLine s14
    let s16 := mapLines hrStarLine s15
    let s17 := mapLines ulLine s16
    let s18 := mapLines olLine s17
    let s19 := applyRule wrapListsMatcher s18
    let s20 := applyRule mergeBlockquotesMatcher s19
    paragraphs s20

/- ======================================================================
   Theorems: C1, C4, C7 (progress and gestures)
   ====================================================================== -/

/-- Claim C1: the computed reading percentage is the rounded scroll fraction
clamped to [0,100], and content no taller than the viewport always reads 100.
The code violates the second part: `getMaxScroll` clamps at 1, so the
`maxScroll <= 0` branch that returns 100 is unreachable, and a short article
at scroll offset 0 reads 0, not 100.  This theorem evaluates the embedded
code at the failing input (scrollTop 0, content 500px, viewport 800px). -/
theorem c1_short_content_reads_zero :
    getScrollPercentage 0 500 800 = 0 ∧ getScrollPercentage 0 500 800 ≠ 100 := by
  have hmax : getMaxScroll 500 800 = 1 := by
    unfold getMaxScroll
    rw [max_eq_left (by norm_num)]
  constructor
  · unfold getScrollPercentage
    rw [hmax]
    norm_num [jround]
  · unfold getScrollPercentage
    rw [hmax]
    norm_num [jround]

/-- Claim C4 (counterexample): the claim says a touch sequence with
`dx = startX - endX = 0`, `dy = startY - endY = -60`, `dt = 100ms` classifies
as SwipeUp; the code classifies it as SwipeDown (`deltaY > 0` is the
swipe-up branch, and here `deltaY = -60`). -/
theorem c4_cex_dy_negative_swipe_down :
    handleTouchEnd 0 (-60) 100 = some Gesture.swipeDown ∧
    handleTouchEnd 0 (-60) 100 ≠ some Gesture.swipeUp := by
  constructor
  · decide
  · decide

/-- Claim C4 (amended): a sequence whose `dt` exceeds 300 ms fires no
callback; `dy = +60` (finger moved up) classifies as SwipeUp while
`dy = -60` classifies as SwipeDown; and `dx=5, dy=3, dt=50ms` classifies
as Tap. -/
theorem c4_gesture_classification :
    (∀ dx dy dt : ℤ, 300 < dt → handleTouchEnd dx dy dt = none) ∧
    handleTouchEnd 0 60 100 = some Gesture.swipeUp ∧
    handleTouchEnd 0 (-60) 100 = some Gesture.swipeDown ∧
    handleTouchEnd 5 3 50 = some Gesture.tap := by
  refine ⟨fun dx dy dt h => ?_, by decide, by decide, by decide⟩
  unfold handleTouchEnd SWIPE_TIMEOUT
  rw [if_pos h]

/-- Witness for C4: a slow gesture (dt = 301 ms) is discarded. -/
theorem c4_gesture_classification_witness : handleTouchEnd 0 (-60) 301 = none :=
  c4_gesture_classification.1 0 (-60) 301 (by decide)

/-- Claim C7: restoring a stored percentage `p ∈ [0,100]` through
`initArticle`'s offset formula and reading it back through
`getScrollPercentage` yields `p` exactly (the two directions use the same
`getMaxScroll`, which is always positive). -/
theorem c7_progress_restore_round_trip (p : ℤ) (contentHeight viewportHeight : ℚ)
    (h0 : 0 ≤ p) (h1 : p ≤ 100) :
    getScrollPercentage (initArticleScrollTop p contentHeight viewportHeight)
      contentHeight viewportHeight = p := by
  have hpos : (0 : ℚ) < getMaxScroll contentHeight viewportHeight :=
    lt_of_lt_of_le one_pos (le_max_left _ _)
  have hne : getMaxScroll contentHeight viewportHeight ≠ 0 := ne_of_gt hpos
  unfold getScrollPercentage
  rw [if_neg (not_le.mpr hpos)]
  unfold initArticleScrollTop jround
  have harg : (p : ℚ) / 100 * getMaxScroll contentHeight viewportHeight /
      getMaxScroll contentHeight viewportHeight * 100 = (p : ℚ) := by
    field_simp
    ring
  rw [harg, Int.floor_int_add]
  norm_num

/-- Witness for C7: percentage 37 with a 1000px document in a 200px viewport
restores and reads back as 37. -/
theorem c7_progress_restore_round_trip_witness :
    getScrollPercentage (initArticleScrollTop 37 1000 200) 1000 200 = 37 :=
  c7_progress_restore_round_trip 37 1000 200 (by norm_num) (by norm_num)

/- ======================================================================
   Theorems: C3 (immersive UI invariant)
   ====================================================================== -/

/-- Claim C3 (counterexample): from the initial state, swipe-up (hide chrome)
followed by the explicit open-panel action reaches the state where chrome is
hidden AND the settings panel is open — the claimed invariant fails in a
reachable state, and the open-panel action did not force chrome visible. -/
theorem c3_cex_panel_open_while_hidden :
    uiRun [UIEvent.swipeUp, UIEvent.settingsButton] =
      ⟨true, true⟩ := by
  decide

/-- Claim C3 (amended): the explicit open-panel action opens the panel but
leaves chrome visibility unchanged (so invoking it while chrome is hidden
yields chrome hidden AND panel open); hiding chrome (swipe-up) always leaves
the panel closed; and every event other than the open-panel action preserves
the invariant that the panel is not open while chrome is hidden. -/
theorem c3_ui_state_machine (s : UIState) :
    (uiStep UIEvent.swipeUp s).settingsSheetOpen = false ∧
    uiStep UIEvent.settingsButton s = { s with settingsSheetOpen := true } ∧
    (∀ e : UIEvent, e ≠ UIEvent.settingsButton →
      (s.settingsSheetOpen = true → s.uiHidden = false) →
      ((uiStep e s).settingsSheetOpen = true → (uiStep e s).uiHidden = false)) := by
  obtain ⟨h, o⟩ := s
  refine ⟨by cases h <;> cases o <;> decide, by cases h <;> cases o <;> decide, ?_⟩
  intro e he hinv
  cases e <;> cases h <;> cases o <;> simp_all <;> decide

/-- Witness for C3: swiping up with the panel open leaves the panel closed. -/
theorem c3_ui_state_machine_witness :
    (uiStep UIEvent.swipeUp ⟨true, true⟩).settingsSheetOpen = false :=
  (c3_ui_state_machine ⟨true, true⟩).1

/- ======================================================================
   Theorems: C5 (mark-as-read monotonicity)
   ====================================================================== -/

/-- Each article position survives one scroll tick with the same id, read
state only ever moving from unread to read, and is forced to read when the
tick reports more than 90 percent for that article. -/
theorem setupScrollProgressTick_get? (articles : List RArticle)
    (cur : Option ℕ) (p : ℚ) (now : ℕ) (i : ℕ) (a : RArticle)
    (ha : articles.get? i = some a) :
    ∃ b, (setupScrollProgressTick articles cur p now).get? i = some b ∧
      b.id = a.id ∧ (a.isRead = true → b.isRead = true) ∧
      (cur = some a.id → 90 < p → b.isRead = true) := by
  cases cur with
  | none =>
    exact ⟨a, ha, rfl, fun h => h, fun h => by cases h⟩
  | some id =>
    simp only [setupScrollProgressTick]
    by_cases hp0 : 0 < p
    · rw [if_pos hp0]
      by_cases hp90 : 90 < p
      · rw [if_pos hp90]
        unfold markAsRead updateProgress articlesUpdate
        rw [List.map_map]
        refine ⟨_, (List.get?_map _ _ _).trans (by rw [ha]; rfl), ?_, ?_, ?_⟩
        · by_cases hid : a.id = id <;> simp [Function.comp, hid]
        · by_cases hid : a.id = id <;> simp [Function.comp, hid]
        · intro hcur _
          have hid : a.id = id := (Option.some.inj hcur).symm
          simp [Function.comp, hid]
      · rw [if_neg hp90]
        unfold updateProgress articlesUpdate
        refine ⟨_, (List.get?_map _ _ _).trans (by rw [ha]; rfl), ?_, ?_, ?_⟩
        · by_cases hid : a.id = id <;> simp [hid]
        · by_cases hid : a.id = id <;> simp [hid]
        · exact fun _ hp => absurd hp hp90
    · rw [if_neg hp0]
      exact ⟨a, ha, rfl, fun h => h, fun _ hp => absurd (lt_trans (by norm_num) hp) hp0⟩

/-- Read flags survive any sequence of scroll ticks. -/
theorem runScrollTicks_isRead_mono (events : List (Option ℕ × ℚ × ℕ)) :
    ∀ (articles : List RArticle) (i : ℕ) (a : RArticle),
      articles.get? i = some a → a.isRead = true →
      ∃ b, (runScrollTicks articles events).get? i = some b ∧ b.isRead = true := by
  induction events with
  | nil => exact fun articles i a ha hr => ⟨a, ha, hr⟩
  | cons e rest ih =>
    intro articles i a ha hr
    obtain ⟨b, hb, _, hmono, _⟩ :=
      setupScrollProgressTick_get? articles e.1 e.2.1 e.2.2 i a ha
    exact ih _ i b hb (hmono hr)

/-- Claim C5: mark-as-read is monotonic.  A scroll tick reporting more than
90 percent for the open article sets its read flag, and once an article's
read flag is true no subsequent sequence of progress updates (to any
percentage, including 0) ever unsets it. -/
theorem c5_mark_as_read_monotonic (articles : List RArticle) (id : ℕ)
    (p : ℚ) (now : ℕ) :
    (∀ i a, articles.get? i = some a → a.id = id → 90 < p →
      ∃ b, (setupScrollProgressTick articles (some id) p now).get? i = some b ∧
        b.isRead = true) ∧
    (∀ (events : List (Option ℕ × ℚ × ℕ)) (i : ℕ) (a : RArticle),
      articles.get? i = some a → a.isRead = true →
      ∃ b, (runScrollTicks articles events).get? i = some b ∧ b.isRead = true) := by
  constructor
  · intro i a ha haid hp
    obtain ⟨b, hb, _, _, hthresh⟩ :=
      setupScrollProgressTick_get? articles (some id) p now i a ha
    exact ⟨b, hb, hthresh (by rw [haid]) hp⟩
  · exact fun events i a ha hr => runScrollTicks_isRead_mono events articles i a ha hr

/-- Witness for C5: a 95-percent tick marks the single unread article read,
and a later drop to 0 percent keeps it read. -/
theorem c5_mark_as_read_monotonic_witness :
    ∃ b, (setupScrollProgressTick [⟨7, false, none, 10⟩] (some 7) 95 3).get? 0 =
      some b ∧ b.isRead = true :=
  (c5_mark_as_read_monotonic [⟨7, false, none, 10⟩] 7 95 3).1 0 ⟨7, false, none, 10⟩
    rfl rfl (by norm_num)

/- ======================================================================
   Theorems: C8 (bookmark tolerance), C10 (delete of missing id)
   ====================================================================== -/

/-- Claim C8: bookmark lookup honours the 2-point tolerance.  When an
article's bookmark list is a single bookmark, `findBookmark` at position 41
returns it if it sits at 40 (distance 1 < 2) and returns null if it sits
at 35 (distance 6 ≥ 2). -/
theorem c8_bookmark_tolerance (db : ZkDB) (articleId : ℕ) (b : Bookmark)
    (hb : getBookmarks db articleId = [b]) :
    (b.scrollPosition = 40 → findBookmark db articleId 41 = some b) ∧
    (b.scrollPosition = 35 → findBookmark db articleId 41 = none) := by
  constructor
  · intro h40
    unfold findBookmark
    rw [hb]
    have : |b.scrollPosition - 41| < 2 := by rw [h40]; norm_num
    simp [List.find?, this]
  · intro h35
    unfold findBookmark
    rw [hb]
    have : ¬ |b.scrollPosition - 41| < 2 := by rw [h35]; norm_num
    simp [List.find?, this]

/-- Witness for C8: a concrete database whose article 7 has one bookmark at
position 40; lookup at 41 finds it. -/
theorem c8_bookmark_tolerance_witness :
    findBookmark ⟨[], [], [⟨1, 7, 40, [], 0⟩], [], []⟩ 7 41 =
      some ⟨1, 7, 40, [], 0⟩ :=
  (c8_bookmark_tolerance ⟨[], [], [⟨1, 7, 40, [], 0⟩], [], []⟩ 7 ⟨1, 7, 40, [], 0⟩
    (by decide)).1 rfl

/-- Claim C10: deleting a non-existent article id is a harmless no-op:
when no article row has the id, `deleteArticle` returns the database
unchanged (articles, contents, bookmarks, highlights and reading-progress
records all untouched). -/
theorem c10_delete_missing_id_noop (db : ZkDB) (id : ℕ)
    (h : articlesGet db.articles id = none) :
    deleteArticle db id = db := by
  unfold deleteArticle
  rw [h]

/-- Witness for C10: deleting id 99 from a database holding only article 1
changes nothing. -/
theorem c10_delete_missing_id_noop_witness :
    deleteArticle ⟨[⟨1, [], [], 0, none⟩], [], [], [], []⟩ 99 =
      ⟨[⟨1, [], [], 0, none⟩], [], [], [], []⟩ :=
  c10_delete_missing_id_noop ⟨[⟨1, [], [], 0, none⟩], [], [], [], []⟩ 99 (by decide)

/- ======================================================================
   Theorems: C9 (reading-time estimator)
   ====================================================================== -/

/-- The split scanner never returns an empty list of pieces. -/
theorem splitWSAux_ne_nil : ∀ (l : List Char) (st : Option (List Char)),
    splitWSAux st l ≠ [] := by
  intro l
  induction l with
  | nil => intro st; cases st <;> simp [splitWSAux]
  | cons c r ih =>
    intro st
    cases st with
    | some acc =>
      by_cases h : jsWhitespace c
      · simp [splitWSAux, h]
      · simpa [splitWSAux, h] using ih (some (c :: acc))
    | none =>
      by_cases h : jsWhitespace c
      · simpa [splitWSAux, h] using ih none
      · simpa [splitWSAux, h] using ih (some [c])

/-- The head of `dropWhile p` never satisfies `p`. -/
theorem dropWhile_head?_not (p : Char → Bool) :
    ∀ (w : List Char) (c : Char), (w.dropWhile p).head? = some c → p c = false := by
  intro w
  induction w with
  | nil => intro c h; cases h
  | cons x w ih =>
    intro c h
    by_cases hx : p x
    · rw [List.dropWhile_cons_of_pos hx] at h
      exact ih c h
    · rw [List.dropWhile_cons_of_neg hx] at h
      obtain rfl : x = c := Option.some.inj h
      exact Bool.eq_false_iff.mpr hx

/-- A nonempty `dropWhile` keeps the last element of the list. -/
theorem dropWhile_getLast? (p : Char → Bool) (w : List Char)
    (h : w.dropWhile p ≠ []) : (w.dropWhile p).getLast? = w.getLast? := by
  conv_rhs => rw [← List.takeWhile_append_dropWhile p w]
  exact (List.getLast?_append_of_ne_nil _ h).symm

/-- A trimmed string neither starts nor ends with whitespace. -/
theorem jsTrim_ends (s : List Char) :
    (∀ c, (jsTrim s).head? = some c → jsWhitespace c = false) ∧
    (∀ c, (jsTrim s).getLast? = some c → jsWhitespace c = false) := by
  constructor
  · intro c hc
    rw [jsTrim, List.head?_reverse] at hc
    have hne : (s.dropWhile jsWhitespace).reverse.dropWhile jsWhitespace ≠ [] := by
      intro hnil
      rw [hnil] at hc
      cases hc
    rw [dropWhile_getLast? _ _ hne, List.getLast?_reverse] at hc
    exact dropWhile_head?_not jsWhitespace _ c hc
  · intro c hc
    rw [jsTrim, List.getLast?_reverse] at hc
    exact dropWhile_head?_not jsWhitespace _ c hc

/-- On input with no trailing whitespace, the scanner yields only nonempty
pieces, provided the current token is nonempty or the input starts with a
non-whitespace character. -/
theorem splitWSAux_pieces_ne_nil : ∀ (l : List Char),
    (∀ (acc : List Char),
      (∀ c, l.getLast? = some c → jsWhitespace c = false) →
      (acc ≠ [] ∨ ∃ c r', l = c :: r' ∧ jsWhitespace c = false) →
      ∀ t ∈ splitWSAux (some acc) l, t ≠ []) ∧
    ((∀ c, l.getLast? = some c → jsWhitespace c = false) → l ≠ [] →
      ∀ t ∈ splitWSAux none l, t ≠ []) := by
  intro l
  induction l with
  | nil =>
    constructor
    · intro acc _ hside t ht
      have hacc : acc ≠ [] := by
        rcases hside with h | ⟨c, r', h, _⟩
        · exact h
        · cases h
      simp only [splitWSAux, List.mem_singleton] at ht
      subst ht
      simpa using hacc
    · intro _ hne
      exact absurd rfl hne
  | cons c r ih =>
    have hlast : r ≠ [] →
        (∀ x, (c :: r).getLast? = some x → jsWhitespace x = false) →
        (∀ x, r.getLast? = some x → jsWhitespace x = false) := by
      intro hr htail x hx
      apply htail
      obtain ⟨y, rs, rfl⟩ := List.exists_cons_of_ne_nil hr
      rwa [List.getLast?_cons_cons]
    constructor
    · intro acc htrail hside t ht
      by_cases hws : jsWhitespace c
      · have hacc : acc ≠ [] := by
          rcases hside with h | ⟨c', r', heq, hc'⟩
          · exact h
          · obtain rfl : c' = c := ((List.cons.inj heq).1).symm
            rw [hws] at hc'
            cases hc'
        have hr : r ≠ [] := by
          intro hnil
          subst hnil
          exact absurd (htrail c rfl) (by simp [hws])
        simp only [splitWSAux, hws, if_pos, List.mem_cons] at ht
        rcases ht with rfl | ht
        · simpa using hacc
        · exact ih.2 (hlast hr htrail) hr t ht
      · simp only [splitWSAux, hws] at ht
        rw [if_neg (by simp [hws])] at ht
        rcases List.eq_nil_or_concat r with rfl | _
        · refine ih.1 (c :: acc) (by simp) (Or.inl (by simp)) t ht
        · by_cases hr : r = []
          · subst hr
            exact ih.1 (c :: acc) (by simp) (Or.inl (by simp)) t ht
          · exact ih.1 (c :: acc) (hlast hr htrail) (Or.inl (by simp)) t ht
    · intro htrail _ t ht
      by_cases hws : jsWhitespace c
      · have hr : r ≠ [] := by
          intro hnil
          subst hnil
          exact absurd (htrail c rfl) (by simp [hws])
        simp only [splitWSAux, hws, if_pos] at ht
        exact ih.2 (hlast hr htrail) hr t ht
      · simp only [splitWSAux, hws] at ht
        rw [if_neg (by simp [hws])] at ht
        by_cases hr : r = []
        · subst hr
          exact ih.1 [c] (by simp) (Or.inl (by simp)) t ht
        · exact ih.1 [c] (hlast hr htrail) (Or.inl (by simp)) t ht

/-- On a trimmed string the piece count of the split is `max 1` of the
nonempty-piece count. -/
theorem splitWS_trim_length (text : List Char) :
    (splitWS (jsTrim text)).length = max 1 (wordCount text) := by
  by_cases h : jsTrim text = []
  · rw [wordCount, h]
    simp [splitWS, splitWSAux]
  · have hhead := (jsTrim_ends text).1
    have hlast := (jsTrim_ends text).2
    obtain ⟨c, r, hcr⟩ := List.exists_cons_of_ne_nil h
    have hpieces : ∀ t ∈ splitWS (jsTrim text), t ≠ [] := by
      intro t ht
      refine (splitWSAux_pieces_ne_nil (jsTrim text)).1 [] hlast ?_ t ht
      refine Or.inr ⟨c, r, hcr, ?_⟩
      exact hhead c (by rw [hcr]; rfl)
    have hfilter : (splitWS (jsTrim text)).filter (fun w => !w.isEmpty) =
        splitWS (jsTrim text) := by
      refine List.filter_eq_self.mpr fun t ht => ?_
      have := hpieces t ht
      simp [List.isEmpty_iff, this]
    rw [wordCount, hfilter]
    have hlen : 1 ≤ (splitWS (jsTrim text)).length :=
      List.length_pos.mpr (splitWSAux_ne_nil (jsTrim text) (some []))
    omega

/-- Claim C9: the reading-time estimator returns
`ceil(wordCount / wordsPerMinute)` with a minimum of 1, and in particular
returns at least 1 on every input text, including the empty string. -/
theorem c9_reading_time_minimum_one (text : List Char) (wordsPerMinute : ℕ)
    (hw : 1 ≤ wordsPerMinute) :
    calculateReadingTime text wordsPerMinute =
      max 1 (jceil ((wordCount text : ℚ) / (wordsPerMinute : ℚ))) ∧
    1 ≤ calculateReadingTime text wordsPerMinute := by
  have hwq : (0 : ℚ) < (wordsPerMinute : ℚ) := by
    exact_mod_cast Nat.lt_of_lt_of_le Nat.zero_lt_one hw
  have key : calculateReadingTime text wordsPerMinute =
      max 1 (jceil ((wordCount text : ℚ) / (wordsPerMinute : ℚ))) := by
    rw [calculateReadingTime, splitWS_trim_length]
    by_cases h0 : wordCount text = 0
    · rw [h0]
      have h1 : jceil ((1 : ℚ) / (wordsPerMinute : ℚ)) = 1 := by
        rw [jceil, Int.ceil_eq_iff]
        constructor
        · push_cast
          simpa using div_pos one_pos hwq
        · push_cast
          rw [div_le_one hwq]
          exact_mod_cast hw
      simpa [jceil] using h1
    · have h1 : max 1 (wordCount text) = wordCount text := by omega
      rw [h1]
      have hpos : (0 : ℚ) < (wordCount text : ℚ) / (wordsPerMinute : ℚ) := by
        apply div_pos _ hwq
        exact_mod_cast Nat.pos_of_ne_zero h0
      have hceil : 1 ≤ jceil ((wordCount text : ℚ) / (wordsPerMinute : ℚ)) := by
        rw [jceil]
        exact Int.ceil_pos.mpr hpos
      omega
  refine ⟨key, ?_⟩
  rw [key]
  exact le_max_left _ _

/-- Witness for C9: the empty text still takes one minute at 200 wpm. -/
theorem c9_reading_time_minimum_one_witness :
    1 ≤ calculateReadingTime [] 200 :=
  (c9_reading_time_minimum_one [] 200 (by norm_num)).2

/- ======================================================================
   Theorems: C2 (fenced code blocks), C6 (heading slugs)
   ====================================================================== -/

/-- Collapsing whitespace runs to dashes and then dash runs to single dashes
equals a single collapse pass over the combined whitespace-or-dash class
(stated for the three reachable state pairs of the two-pass scan). -/
theorem collapseRuns_fuse (s : List Char) :
    (collapseRuns dashPred false (collapseRuns jsWhitespace false s) =
      collapseRuns wsDash false s) ∧
    (collapseRuns dashPred true (collapseRuns jsWhitespace true s) =
      collapseRuns wsDash true s) ∧
    (collapseRuns dashPred true (collapseRuns jsWhitespace false s) =
      collapseRuns wsDash true s) := by
  induction s with
  | nil => exact ⟨rfl, rfl, rfl⟩
  | cons c r ih =>
    obtain ⟨ih1, ih2, ih3⟩ := ih
    by_cases hws : jsWhitespace c = true
    · have hm : wsDash c = true := by simp [wsDash, hws]
      refine ⟨?_, ?_, ?_⟩ <;>
        simp [collapseRuns, hws, hm, dashPred, ih1, ih2, ih3]
    · by_cases hdc : dashPred c = true
      · have hc : c = '-' := by simpa [dashPred] using hdc
        subst hc
        have hm : wsDash '-' = true := rfl
        have hws' : jsWhitespace '-' = false := rfl
        refine ⟨?_, ?_, ?_⟩ <;>
          simp [collapseRuns, hws', hm, dashPred, ih1, ih2, ih3]
      · have hne : ¬ c = '-' := by simpa [dashPred] using hdc
        have hb : jsWhitespace c = false := Bool.eq_false_iff.mpr hws
        have hm : wsDash c = false := by simp [wsDash, hb, hne]
        refine ⟨?_, ?_, ?_⟩ <;>
          simp [collapseRuns, hws, hdc, hne, hm, dashPred, ih1, ih2, ih3]

/-- Claim C2 (counterexample): fenced content is not protected from the
rules that run after the code-block pass.  Rendering a fence whose content
is `**x**` produces a `<strong>` element inside the `<pre><code>` wrapper,
and the fenced text no longer appears verbatim in the output. -/
theorem c2_cex_fence_reprocessed :
    renderMarkdown "```\n**x**\n```".data =
      "<pre><code class=\"language-\"><strong>x</strong>\n</code></pre>".data ∧
    containsSeq "**x**".data (renderMarkdown "```\n**x**\n```".data) = false := by
  constructor
  · decide
  · decide

/-- Claim C2 (amended): the fenced-code rule wraps the escape-mapped content
in a `<pre><code class="language-...">` wrapper, as in the spec's example:
a `js`-tagged fence around `code` renders exactly to that wrapper.  (The
protection from subsequent rules asserted by the original claim does not
hold in general.) -/
theorem c2_fenced_code_block :
    renderMarkdown "```js\ncode\n```".data =
      "<pre><code class=\"language-js\">code\n</code></pre>".data := by
  decide

/-- Claim C6: rendering `"# Hello\n\nWorld"` yields output containing
`<h1 id="hello">Hello</h1>` and `<p>World</p>`, and the slug derivation of
`slugify` is exactly the spec's: lowercase, strip characters outside
`[a-z0-9\s-]`, trim, and collapse whitespace/dash runs to single dashes. -/
theorem c6_heading_slug_render :
    containsSeq "<h1 id=\"hello\">Hello</h1>".data
      (renderMarkdown "# Hello\n\nWorld".data) = true ∧
    containsSeq "<p>World</p>".data (renderMarkdown "# Hello\n\nWorld".data) = true ∧
    ∀ text : List Char, slugify text = slugifySpec text := by
  refine ⟨by decide, by decide, fun text => ?_⟩
  unfold slugify slugifySpec
  exact (collapseRuns_fuse _).1
